import Mathlib

/-!
Verification of the replay-buffer and TD3-update core of the spinningup TD3
trainer (files `replay_buffers.py`, `td3.py`).

Modelling conventions:
* numpy / torch float arrays are modelled as `List ℚ` (exact arithmetic);
  an observation or action is a scalar `ℚ` (`squeeze()` is the identity).
* python booleans stored into float arrays become `(1 : ℚ)` / `(0 : ℚ)`.
* `assert` failures and numpy `ValueError`s are modelled by `Option`-valued
  results (`none` = the call fails).
* randomness (`np.random.randint`, `torch.randn_like`) is supplied
  explicitly as a stream of draws.
-/

/-- One shifted-and-decayed pass of the loop body of
`calculate_nstep_returns` (replay_buffers.py lines 15-18):
`reward = np.roll(reward, -1, 0); reward[-1] = 0.0; reward *= gamma`. -/
def nstepShift (gamma : ℚ) : List ℚ → List ℚ
  | [] => []
  | _ :: rest => (rest ++ [0]).map (fun x => x * gamma)

/-- The loop of `calculate_nstep_returns` (replay_buffers.py lines 15-19):
runs the shift-decay pass `j` times, accumulating into `returns`
(`returns += reward` is elementwise addition of equal-length arrays). -/
def nstepIter (gamma : ℚ) : ℕ → List ℚ → List ℚ → List ℚ × List ℚ
  | 0, returns, reward => (returns, reward)
  | j + 1, returns, reward =>
    let reward2 := nstepShift gamma reward
    nstepIter gamma j (List.zipWith (· + ·) returns reward2) reward2

/-- `calculate_nstep_returns` (replay_buffers.py lines 12-20): the loop body
runs `n - 1` times starting from `returns = reward = rewards`. -/
def calculate_nstep_returns (rewards : List ℚ) (n : ℕ) (gamma : ℚ) : List ℚ :=
  (nstepIter gamma (n - 1) rewards rewards).1

/-- State of `MultiStepIntermediateBuffer` (replay_buffers.py lines 22-52).
The python attributes `obs_buf`, `act_buf`, `rew_buf`, `done_buf`, `_full`,
`n_step_returns` do not exist before the first `reset`; they are modelled by
the empty/false initial values of `MultiStepIntermediateBuffer.init` (the
first `store` resets them before any read, and `get_trajectory` on the
initial state fails either way). -/
structure MultiStepIntermediateBuffer where
  n : ℕ
  gamma : ℚ
  ready_to_reset : Bool
  obs_buf : List ℚ
  act_buf : List ℚ
  rew_buf : List ℚ
  done_buf : List Bool
  full : Bool
  n_step_returns : List ℚ
  deriving Repr, DecidableEq

namespace MultiStepIntermediateBuffer

/-- `__init__` (replay_buffers.py lines 23-26). -/
def init (n : ℕ) (gamma : ℚ) : MultiStepIntermediateBuffer :=
  { n := n, gamma := gamma, ready_to_reset := true, obs_buf := [], act_buf := [],
    rew_buf := [], done_buf := [], full := false, n_step_returns := [] }

/-- `reset` (replay_buffers.py lines 28-34).  The python `assert
self._ready_to_reset` is satisfied at the only call site (inside `store`,
under the `self._ready_to_reset` guard), so it is not modelled here. -/
def reset (b : MultiStepIntermediateBuffer) : MultiStepIntermediateBuffer :=
  { b with obs_buf := [], act_buf := [], rew_buf := [], done_buf := [], full := false }

/-- `store` (replay_buffers.py lines 36-47).  Returns the updated buffer and
the returned python value `self._full`.  The `next_obs` argument is accepted
and ignored, exactly as in the source. -/
def store (b : MultiStepIntermediateBuffer) (obs act rew _next_obs : ℚ) (done : Bool) :
    MultiStepIntermediateBuffer × Bool :=
  let b1 := if b.ready_to_reset then { b.reset with ready_to_reset := false } else b
  let b2 := { b1 with obs_buf := b1.obs_buf ++ [obs], act_buf := b1.act_buf ++ [act],
                      rew_buf := b1.rew_buf ++ [rew], done_buf := b1.done_buf ++ [done] }
  let b3 := if done then
      { b2 with n_step_returns := calculate_nstep_returns b2.rew_buf b2.n b2.gamma,
                full := true }
    else b2
  (b3, b3.full)

/-- `get_trajectory` (replay_buffers.py lines 49-52).  `none` models the
`assert self._full` failure.  Note the source sets `_ready_to_reset` but does
NOT clear `_full`. -/
def get_trajectory (b : MultiStepIntermediateBuffer) :
    Option ((List ℚ × List ℚ × List ℚ × List Bool) × MultiStepIntermediateBuffer) :=
  if b.full then
    some ((b.obs_buf, b.act_buf, b.n_step_returns, b.done_buf),
          { b with ready_to_reset := true })
  else none

end MultiStepIntermediateBuffer

/-- State of `ReplayBuffer` (replay_buffers.py lines 55-84): five parallel
fixed-length arrays plus cursor, size and capacity.  The float `done` array
holds `1` or `0`. -/
structure ReplayBuffer where
  obs_buf : List ℚ
  obs2_buf : List ℚ
  act_buf : List ℚ
  rew_buf : List ℚ
  done_buf : List ℚ
  ptr : ℕ
  size : ℕ
  max_size : ℕ
  deriving Repr, DecidableEq

namespace ReplayBuffer

/-- `__init__` (replay_buffers.py lines 60-66): zero-filled arrays of length
`size`, cursor and size zero. -/
def init (size : ℕ) : ReplayBuffer :=
  { obs_buf := List.replicate size 0, obs2_buf := List.replicate size 0,
    act_buf := List.replicate size 0, rew_buf := List.replicate size 0,
    done_buf := List.replicate size 0, ptr := 0, size := 0, max_size := size }

/-- `store` (replay_buffers.py lines 68-75).  `obs.squeeze()` is the identity
on scalar observations. -/
def store (b : ReplayBuffer) (obs act rew next_obs : ℚ) (done : Bool) : ReplayBuffer :=
  { b with
    obs_buf := b.obs_buf.set b.ptr obs,
    obs2_buf := b.obs2_buf.set b.ptr next_obs,
    act_buf := b.act_buf.set b.ptr act,
    rew_buf := b.rew_buf.set b.ptr rew,
    done_buf := b.done_buf.set b.ptr (if done then 1 else 0),
    ptr := (b.ptr + 1) % b.max_size,
    size := min (b.size + 1) b.max_size }

/-- The index draw of `np.random.randint(0, self.size, size=batch_size)`
(replay_buffers.py line 78): numpy raises `ValueError` when the range is
empty (`size == 0`), otherwise each of the `batch_size` draws is uniform on
`[0, size)`.  The randomness is supplied as a stream `seeds` of naturals;
draw `k` is `seeds[k] % size`, which ranges over exactly `[0, size)`. -/
def sample_idxs (b : ReplayBuffer) (batch_size : ℕ) (seeds : List ℕ) : Option (List ℕ) :=
  if 0 < b.size then
    some ((List.range batch_size).map (fun k => seeds.getD k 0 % b.size))
  else none

/-- `sample_batch` (replay_buffers.py lines 77-84): gathers the five parallel
arrays at the drawn indices. -/
def sample_batch (b : ReplayBuffer) (batch_size : ℕ) (seeds : List ℕ) :
    Option (List ℚ × List ℚ × List ℚ × List ℚ × List ℚ) :=
  (b.sample_idxs batch_size seeds).map (fun idxs =>
    (idxs.map (fun i => b.obs_buf.getD i 0),
     idxs.map (fun i => b.obs2_buf.getD i 0),
     idxs.map (fun i => b.act_buf.getD i 0),
     idxs.map (fun i => b.rew_buf.getD i 0),
     idxs.map (fun i => b.done_buf.getD i 0)))

end ReplayBuffer

/-- The argument tuple of one `store` call. -/
structure StoreArgs where
  obs : ℚ
  act : ℚ
  rew : ℚ
  next_obs : ℚ
  done : Bool
  deriving Repr, DecidableEq

instance : Inhabited StoreArgs := ⟨⟨0, 0, 0, 0, false⟩⟩

/-- `store` applied to a packed argument tuple. -/
def ReplayBuffer.store1 (b : ReplayBuffer) (t : StoreArgs) : ReplayBuffer :=
  b.store t.obs t.act t.rew t.next_obs t.done

/-- Feeding a stream of transitions to the plain `ReplayBuffer`. -/
def runPlain (b : ReplayBuffer) (ts : List StoreArgs) : ReplayBuffer :=
  ts.foldl ReplayBuffer.store1 b

/-- Well-formedness of a `ReplayBuffer` state: the five arrays have length
`max_size` and the cursor is in range (true for `init` with positive capacity
and preserved by `store`). -/
def ReplayBuffer.WF (b : ReplayBuffer) : Prop :=
  b.obs_buf.length = b.max_size ∧ b.obs2_buf.length = b.max_size ∧
  b.act_buf.length = b.max_size ∧ b.rew_buf.length = b.max_size ∧
  b.done_buf.length = b.max_size ∧ b.ptr < b.max_size

/-- Loop body of the flush in `MultiStepReplayBuffer.store`
(replay_buffers.py lines 101-112): iterates
`enumerate(zip(obss, acts, n_step_returns, dones))` with counter `i`.  The
per-position writes (lines 102-112) coincide with `ReplayBuffer.store`
applied to the substituted `next_obs`/`done`; the loop variable `done` is
unused by the body, exactly as in the source. -/
def msFlushGo (n : ℕ) (obss : List ℚ) (dones : List Bool) :
    ℕ → List (ℚ × ℚ × ℚ × Bool) → ReplayBuffer → ReplayBuffer
  | _, [], b => b
  | i, (obs, act, ret, _) :: rest, b =>
    msFlushGo n obss dones (i + 1) rest
      (if i + n < obss.length then
        b.store obs act ret (obss.getD (i + n) 0) (dones.getD (i + n) false)
      else
        b.store obs act ret obs true)

/-- The whole flush of one trajectory (replay_buffers.py lines 100-112). -/
def msFlush (n : ℕ) (obss acts rets : List ℚ) (dones : List Bool) (b : ReplayBuffer) :
    ReplayBuffer :=
  msFlushGo n obss dones 0 (obss.zip (acts.zip (rets.zip dones))) b

/-- State of `MultiStepReplayBuffer` (replay_buffers.py lines 87-112): the
inherited `ReplayBuffer` state plus the intermediate accumulator and `n`. -/
structure MultiStepReplayBuffer where
  buf : ReplayBuffer
  intermediate : MultiStepIntermediateBuffer
  n : ℕ
  deriving Repr, DecidableEq

namespace MultiStepReplayBuffer

/-- `__init__` (replay_buffers.py lines 92-95). -/
def init (size n : ℕ) (gamma : ℚ) : MultiStepReplayBuffer :=
  { buf := ReplayBuffer.init size,
    intermediate := MultiStepIntermediateBuffer.init n gamma, n := n }

/-- `store` (replay_buffers.py lines 97-112).  The `none` branch of the
match is dead code: when the intermediate `store` returns `true` its `_full`
flag is set, so `get_trajectory` succeeds. -/
def store (m : MultiStepReplayBuffer) (obs act rew next_obs : ℚ) (done : Bool) :
    MultiStepReplayBuffer :=
  let p := m.intermediate.store obs act rew next_obs done
  if p.2 then
    match p.1.get_trajectory with
    | some (t, ib2) =>
      { m with buf := msFlush m.n t.1 t.2.1 t.2.2.1 t.2.2.2 m.buf, intermediate := ib2 }
    | none => { m with intermediate := p.1 }
  else { m with intermediate := p.1 }

/-- `store` applied to a packed argument tuple. -/
def store1 (m : MultiStepReplayBuffer) (t : StoreArgs) : MultiStepReplayBuffer :=
  m.store t.obs t.act t.rew t.next_obs t.done

end MultiStepReplayBuffer

/-- Feeding a stream of transitions to the `MultiStepReplayBuffer`. -/
def runMS (m : MultiStepReplayBuffer) (ts : List StoreArgs) : MultiStepReplayBuffer :=
  ts.foldl MultiStepReplayBuffer.store1 m

/-- The sequence of raw insertions one flush performs on the base buffer,
position by position; `msFlushGo` is exactly `runPlain` over this list. -/
def flushInsertions (n : ℕ) (obss : List ℚ) (dones : List Bool) :
    ℕ → List (ℚ × ℚ × ℚ × Bool) → List StoreArgs
  | _, [] => []
  | i, (obs, act, ret, _) :: rest =>
    (if i + n < obss.length then
       { obs := obs, act := act, rew := ret, next_obs := obss.getD (i + n) 0,
         done := dones.getD (i + n) false }
     else
       { obs := obs, act := act, rew := ret, next_obs := obs, done := true }) ::
    flushInsertions n obss dones (i + 1) rest

/-- The input stream is a concatenation of complete episodes: each episode is
a block of non-terminal steps followed by one step with `done = true`. -/
inductive CompleteEpisodes : List StoreArgs → Prop
  | nil : CompleteEpisodes []
  | episode (es : List StoreArgs) (e : StoreArgs) (rest : List StoreArgs) :
      (∀ t ∈ es, t.done = false) → e.done = true → CompleteEpisodes rest →
      CompleteEpisodes (es ++ e :: rest)

/-- One iteration of the environment-interaction part of the td3 training
loop (td3.py lines 314-333), restricted to the state that drives the replay
buffer: the buffer itself and `ep_len`.  `t.done` is the raw `done` returned
by the environment; the loop suppresses it when the step hits `max_ep_len`
(line 321), stores the transition (line 324), and on `d or ep_len ==
max_ep_len` resets the environment and `ep_len` (lines 331-333). -/
def td3StoreLoop (max_ep_len : ℕ) (s : MultiStepReplayBuffer × ℕ) (t : StoreArgs) :
    MultiStepReplayBuffer × ℕ :=
  let ep_len := s.2 + 1
  let d := if ep_len = max_ep_len then false else t.done
  let m := s.1.store t.obs t.act t.rew t.next_obs d
  if d ∨ ep_len = max_ep_len then (m, 0) else (m, ep_len)

/-- Running the training-loop storage skeleton over a stream of env steps. -/
def runLoop (max_ep_len : ℕ) (m : MultiStepReplayBuffer) (ts : List StoreArgs) :
    MultiStepReplayBuffer × ℕ :=
  ts.foldl (td3StoreLoop max_ep_len) (m, 0)

/-- `torch.clamp` on a scalar. -/
def tclampS (x lo hi : ℚ) : ℚ := min (max x lo) hi

/-- The smoothed target action `a2` of `compute_loss_q` (td3.py lines
166-172); `epsraw` is the raw `torch.randn_like` draw for each batch
element, so `epsilon = epsraw * target_noise` clipped to
`[-noise_clip, noise_clip]`. -/
def a2_list (pit : ℚ → ℚ) (target_noise noise_clip act_limit : ℚ)
    (o2 epsraw : List ℚ) : List ℚ :=
  let pi_targ := o2.map pit
  let epsilon := epsraw.map (fun x => x * target_noise)
  let epsilon2 := epsilon.map (fun x => tclampS x (-noise_clip) noise_clip)
  let a2 := List.zipWith (fun x y => x + y) pi_targ epsilon2
  a2.map (fun x => tclampS x (-act_limit) act_limit)

/-- `q_pi_targ = torch.min(q1_pi_targ, q2_pi_targ)` (td3.py lines 175-177). -/
def q_pi_targ_list (q1t q2t : ℚ → ℚ → ℚ) (o2 a2 : List ℚ) : List ℚ :=
  List.zipWith min (List.zipWith q1t o2 a2) (List.zipWith q2t o2 a2)

/-- `backup = r + gamma**(multistep_n) * (1 - d) * q_pi_targ` (td3.py line
178), elementwise over the batch. -/
def backup_list (pit : ℚ → ℚ) (q1t q2t : ℚ → ℚ → ℚ) (gamma : ℚ) (multistep_n : ℕ)
    (target_noise noise_clip act_limit : ℚ) (r o2 d epsraw : List ℚ) : List ℚ :=
  let a2 := a2_list pit target_noise noise_clip act_limit o2 epsraw
  let q_pi_targ := q_pi_targ_list q1t q2t o2 a2
  List.zipWith (fun x y => x + y) r
    (List.zipWith (fun dd qq => gamma ^ multistep_n * (1 - dd) * qq) d q_pi_targ)

/-- `.mean()` of a 1-d tensor. -/
def tmean (v : List ℚ) : ℚ := v.sum / v.length

/-- `compute_loss_q` (td3.py lines 158-189), as a function of the live
Q-networks `q1`, `q2`, the target networks `pit`, `q1t`, `q2t` (all
batch-elementwise scalar functions), the hyperparameters and the batch. -/
def compute_loss_q (q1 q2 : ℚ → ℚ → ℚ) (pit : ℚ → ℚ) (q1t q2t : ℚ → ℚ → ℚ)
    (gamma : ℚ) (multistep_n : ℕ) (target_noise noise_clip act_limit : ℚ)
    (o a r o2 d epsraw : List ℚ) : ℚ :=
  let q1v := List.zipWith q1 o a
  let q2v := List.zipWith q2 o a
  let backup := backup_list pit q1t q2t gamma multistep_n target_noise noise_clip
    act_limit r o2 d epsraw
  tmean (List.zipWith (fun x y => (x - y) ^ 2) q1v backup) +
  tmean (List.zipWith (fun x y => (x - y) ^ 2) q2v backup)

/-- Mean-squared error, following the words of the claim. -/
def mse (pred tgt : List ℚ) : ℚ :=
  tmean (List.zipWith (fun x y => (x - y) ^ 2) pred tgt)

/-- The claim's formula for the target action of one batch element:
`clamp(target_policy(next_obs) + clip(epsilon, -noise_clip, noise_clip),
-act_limit, act_limit)` with `epsilon` of standard deviation
`target_noise`. -/
def target_action_spec (pit : ℚ → ℚ) (target_noise noise_clip act_limit : ℚ)
    (o2i ei : ℚ) : ℚ :=
  tclampS (pit o2i + tclampS (ei * target_noise) (-noise_clip) noise_clip)
    (-act_limit) act_limit

/-- The claim's formula for the regression target of one batch element:
`reward + gamma^n * (1 - done) * min(Q1_target, Q2_target)(next_obs,
target_action)`. -/
def backup_spec (pit : ℚ → ℚ) (q1t q2t : ℚ → ℚ → ℚ) (gamma : ℚ) (multistep_n : ℕ)
    (target_noise noise_clip act_limit : ℚ) (ri o2i di ei : ℚ) : ℚ :=
  ri + gamma ^ multistep_n * (1 - di) *
    min (q1t o2i (target_action_spec pit target_noise noise_clip act_limit o2i ei))
        (q2t o2i (target_action_spec pit target_noise noise_clip act_limit o2i ei))

/-- Flattened live / target parameter vectors of the actor-critic pair
(`ac.parameters()` and `ac_targ.parameters()` zipped in td3.py line 237). -/
structure TD3Params where
  live : List ℚ
  targ : List ℚ
  deriving Repr, DecidableEq

/-- The polyak loop of `update` (td3.py lines 236-241):
`p_targ.data.mul_(polyak); p_targ.data.add_((1 - polyak) * p.data)` for every
parameter pair. -/
def polyak_avg (polyak : ℚ) (targ live : List ℚ) : List ℚ :=
  List.zipWith (fun pt p => pt * polyak + (1 - polyak) * p) targ live

/-- `update(data, timer)` (td3.py lines 204-241) abstracted to its effect on
the flattened live/target parameter vectors.  `qstep` stands for the Adam
step on the Q-networks (lines 206-209) and `pistep` for the Adam step on the
policy (lines 223-226); both are arbitrary parameters of the model since the
claim only concerns the target parameters.  The target vector is touched in
exactly one place: the polyak loop inside the `timer % policy_delay == 0`
branch. -/
def td3_update (polyak : ℚ) (policy_delay : ℕ) (qstep pistep : List ℚ → List ℚ)
    (s : TD3Params) (timer : ℕ) : TD3Params :=
  let live1 := qstep s.live
  if timer % policy_delay = 0 then
    let live2 := pistep live1
    { live := live2, targ := polyak_avg polyak s.targ live2 }
  else
    { live := live1, targ := s.targ }

/-- Slot `s` of buffer `b` holds exactly the transition `t` (the `done`
float is `1` for `true` and `0` for `false`). -/
def slotEq (b : ReplayBuffer) (s : ℕ) (t : StoreArgs) : Prop :=
  b.obs_buf.getD s 0 = t.obs ∧ b.obs2_buf.getD s 0 = t.next_obs ∧
  b.act_buf.getD s 0 = t.act ∧ b.rew_buf.getD s 0 = t.rew ∧
  b.done_buf.getD s 0 = (if t.done then 1 else 0)

/-- Two buffer states agree on the parts the amended claim C2 compares:
`obs`, `act`, `reward` arrays, cursor, size and capacity. -/
def AgreeCore (b c : ReplayBuffer) : Prop :=
  b.obs_buf = c.obs_buf ∧ b.act_buf = c.act_buf ∧ b.rew_buf = c.rew_buf ∧
  b.ptr = c.ptr ∧ b.size = c.size ∧ b.max_size = c.max_size

/-! ### Generic list lemmas -/

theorem getD_set_self {α : Type} (l : List α) (i : ℕ) (x d : α) (h : i < l.length) :
    (l.set i x).getD i d = x := by
  simp [List.getD_eq_getElem?_getD, List.getElem?_set_self', h]

theorem getD_set_ne {α : Type} (l : List α) (i j : ℕ) (x d : α) (h : i ≠ j) :
    (l.set i x).getD j d = l.getD j d := by
  simp [List.getD_eq_getElem?_getD, List.getElem?_set_ne h]

theorem getD_map_lt {α β : Type} (f : α → β) (l : List α) (i : ℕ) (da : α) (db : β)
    (h : i < l.length) : (l.map f).getD i db = f (l.getD i da) := by
  simp [List.getD_eq_getElem?_getD, List.getElem?_eq_getElem h]

theorem getD_zipWith_lt {α β γ : Type} (f : α → β → γ) (a : List α) (b : List β) (i : ℕ)
    (da : α) (db : β) (dc : γ) (h1 : i < a.length) (h2 : i < b.length) :
    (List.zipWith f a b).getD i dc = f (a.getD i da) (b.getD i db) := by
  simp [List.getD_eq_getElem?_getD, List.getElem?_zipWith, List.getElem?_eq_getElem h1,
    List.getElem?_eq_getElem h2]

theorem getD_of_le {α : Type} (l : List α) (i : ℕ) (d : α) (h : l.length ≤ i) :
    l.getD i d = d := by
  simp [List.getD_eq_getElem?_getD, List.getElem?_eq_none h]

theorem getD_append_lt {α : Type} (xs ys : List α) (i : ℕ) (d : α) (h : i < xs.length) :
    (xs ++ ys).getD i d = xs.getD i d := by
  simp [List.getD_eq_getElem?_getD, List.getElem?_append, h]

theorem getD_snoc_length {α : Type} (xs : List α) (x : α) (d : α) :
    (xs ++ [x]).getD xs.length d = x := by
  simp [List.getD_eq_getElem?_getD]

theorem zipWith_add_getD (a b : List ℚ) (h : a.length = b.length) (i : ℕ) :
    (List.zipWith (· + ·) a b).getD i 0 = a.getD i 0 + b.getD i 0 := by
  rcases lt_or_le i a.length with hi | hi
  · exact getD_zipWith_lt _ _ _ _ 0 0 0 hi (h ▸ hi)
  · rw [getD_of_le _ _ _ (by simp [List.length_zipWith]; omega),
      getD_of_le _ _ _ hi, getD_of_le _ _ _ (h ▸ hi)]
    ring

/-! ### The n-step return computation (claim C1) -/

theorem nstepShift_length (gamma : ℚ) (r : List ℚ) :
    (nstepShift gamma r).length = r.length := by
  cases r with
  | nil => rfl
  | cons x rest => simp [nstepShift]

theorem nstepShift_getD (gamma : ℚ) (r : List ℚ) (i : ℕ) :
    (nstepShift gamma r).getD i 0 = r.getD (i + 1) 0 * gamma := by
  cases r with
  | nil => simp [nstepShift]
  | cons x rest =>
    show ((rest ++ [0]).map (fun y => y * gamma)).getD i 0 = rest.getD i 0 * gamma
    rcases lt_or_le i rest.length with h2 | h2
    · rw [getD_map_lt _ _ _ 0 _ (by simp; omega), getD_append_lt _ _ _ _ h2]
    · rcases eq_or_lt_of_le h2 with heq | hlt
      · subst heq
        rw [getD_map_lt _ _ _ 0 _ (by simp), getD_snoc_length, getD_of_le _ _ _ (le_refl _)]
      · rw [getD_of_le _ _ _ (by simp; omega), getD_of_le _ _ _ (by omega)]
        ring

theorem nstepIter_fst_length (gamma : ℚ) :
    ∀ (j : ℕ) (returns reward : List ℚ), returns.length = reward.length →
      ((nstepIter gamma j returns reward).1).length = returns.length := by
  intro j
  induction j with
  | zero => intro returns reward _; rfl
  | succ j ih =>
    intro returns reward h
    have h2 : (List.zipWith (· + ·) returns (nstepShift gamma reward)).length
        = returns.length := by
      simp [List.length_zipWith, nstepShift_length, ← h]
    rw [show nstepIter gamma (j + 1) returns reward
        = nstepIter gamma j (List.zipWith (· + ·) returns (nstepShift gamma reward))
            (nstepShift gamma reward) from rfl]
    rw [ih _ _ (by simp [h2, nstepShift_length, h]), h2]

theorem nstepIter_getD (gamma : ℚ) :
    ∀ (j : ℕ) (returns reward : List ℚ), returns.length = reward.length → ∀ i : ℕ,
      ((nstepIter gamma j returns reward).1).getD i 0
        = returns.getD i 0
          + ∑ k in Finset.range j, reward.getD (i + k + 1) 0 * gamma ^ (k + 1) := by
  intro j
  induction j with
  | zero => intro returns reward _ i; simp [nstepIter]
  | succ j ih =>
    intro returns reward h i
    rw [show nstepIter gamma (j + 1) returns reward
        = nstepIter gamma j (List.zipWith (· + ·) returns (nstepShift gamma reward))
            (nstepShift gamma reward) from rfl]
    rw [ih _ _ (by simp [List.length_zipWith, nstepShift_length, ← h])]
    rw [zipWith_add_getD _ _ (by simp [nstepShift_length, h]) i]
    have hs : ∑ k in Finset.range j,
          (nstepShift gamma reward).getD (i + k + 1) 0 * gamma ^ (k + 1)
        = ∑ k in Finset.range j, reward.getD (i + k + 2) 0 * gamma ^ (k + 2) := by
      refine Finset.sum_congr rfl (fun k _ => ?_)
      rw [nstepShift_getD]
      show reward.getD (i + k + 2) 0 * gamma * gamma ^ (k + 1)
          = reward.getD (i + k + 2) 0 * gamma ^ (k + 2)
      ring
    rw [hs, nstepShift_getD]
    rw [Finset.sum_range_succ' (fun k => reward.getD (i + k + 1) 0 * gamma ^ (k + 1)) j]
    simp only [pow_one, Nat.add_zero]
    have hb : ∑ x in Finset.range j, reward.getD (i + (x + 1) + 1) 0 * gamma ^ (x + 1 + 1)
        = ∑ k in Finset.range j, reward.getD (i + k + 2) 0 * gamma ^ (k + 2) := by
      refine Finset.sum_congr rfl (fun k _ => ?_)
      show reward.getD (i + k + 2) 0 * gamma ^ (k + 2) = _
      rfl
    rw [hb]
    ring

/-- Claim C1: for every terminal episode with reward list `rewards`, every
`n ≥ 1` and every discount `gamma`, the array produced by
`calculate_nstep_returns` (the n-step returns computed on flush) has one
entry per position, and at each position `i` the entry equals
`Σ_{k=0}^{n-1} gamma^k * rewards[i+k]`, rewards past the end of the episode
contributing zero (`getD _ 0`). -/
theorem nstep_returns_formula (rewards : List ℚ) (n : ℕ) (gamma : ℚ) (hn : 1 ≤ n) :
    (calculate_nstep_returns rewards n gamma).length = rewards.length ∧
    ∀ i : ℕ, i < rewards.length →
      (calculate_nstep_returns rewards n gamma).getD i 0
        = ∑ k in Finset.range n, gamma ^ k * rewards.getD (i + k) 0 := by
  constructor
  · exact nstepIter_fst_length gamma (n - 1) rewards rewards rfl
  · intro i _
    rw [calculate_nstep_returns, nstepIter_getD gamma (n - 1) rewards rewards rfl i]
    obtain ⟨m, rfl⟩ : ∃ m, n = m + 1 := ⟨n - 1, by omega⟩
    rw [show m + 1 - 1 = m from rfl]
    rw [Finset.sum_range_succ' (fun k => gamma ^ k * rewards.getD (i + k) 0) m]
    simp only [pow_zero, one_mul, Nat.add_zero]
    have hb : ∑ x in Finset.range m, gamma ^ (x + 1) * rewards.getD (i + (x + 1)) 0
        = ∑ k in Finset.range m, rewards.getD (i + k + 1) 0 * gamma ^ (k + 1) := by
      refine Finset.sum_congr rfl (fun k _ => ?_)
      show gamma ^ (k + 1) * rewards.getD (i + k + 1) 0 = _
      ring
    rw [hb]
    ring

/-- Witness for C1 at `rewards = [1, 2, 3]`, `n = 2`, `gamma = 1/2` (the
instance singled out by the claim). -/
theorem nstep_returns_formula_witness :
    (1 ≤ 2) ∧
    ((calculate_nstep_returns [1, 2, 3] 2 (1/2)).length = ([1, 2, 3] : List ℚ).length ∧
     ∀ i : ℕ, i < ([1, 2, 3] : List ℚ).length →
       (calculate_nstep_returns [1, 2, 3] 2 (1/2)).getD i 0
         = ∑ k in Finset.range 2, (1/2 : ℚ) ^ k * ([1, 2, 3] : List ℚ).getD (i + k) 0) :=
  ⟨by omega, nstep_returns_formula [1, 2, 3] 2 (1/2) (by omega)⟩

/-! ### Circular-buffer behaviour of `ReplayBuffer.store` (claim C4) -/

theorem runPlain_append (b : ReplayBuffer) (ts : List StoreArgs) (t : StoreArgs) :
    runPlain b (ts ++ [t]) = (runPlain b ts).store1 t := by
  simp [runPlain, List.foldl_append]

theorem runPlain_max_size (ts : List StoreArgs) (b : ReplayBuffer) :
    (runPlain b ts).max_size = b.max_size := by
  induction ts generalizing b with
  | nil => rfl
  | cons t ts ih =>
    show (runPlain (b.store1 t) ts).max_size = b.max_size
    rw [ih]
    rfl

theorem runPlain_ptr (ts : List StoreArgs) (b : ReplayBuffer) (hb : b.ptr < b.max_size) :
    (runPlain b ts).ptr = (b.ptr + ts.length) % b.max_size := by
  induction ts generalizing b with
  | nil => simp [runPlain, Nat.mod_eq_of_lt hb]
  | cons t ts ih =>
    have hC : 0 < b.max_size := by omega
    have hb2 : (b.store1 t).ptr < (b.store1 t).max_size := Nat.mod_lt _ hC
    show (runPlain (b.store1 t) ts).ptr = (b.ptr + (ts.length + 1)) % b.max_size
    rw [ih (b.store1 t) hb2]
    show ((b.ptr + 1) % b.max_size + ts.length) % b.max_size = _
    rw [Nat.mod_add_mod]
    congr 1
    omega

theorem runPlain_size (ts : List StoreArgs) (b : ReplayBuffer) (hb : b.size ≤ b.max_size) :
    (runPlain b ts).size = min (b.size + ts.length) b.max_size := by
  induction ts generalizing b with
  | nil =>
    show b.size = min (b.size + 0) b.max_size
    omega
  | cons t ts ih =>
    have hb2 : (b.store1 t).size ≤ (b.store1 t).max_size := by
      show min (b.size + 1) b.max_size ≤ b.max_size
      omega
    show (runPlain (b.store1 t) ts).size = min (b.size + (ts.length + 1)) b.max_size
    rw [ih (b.store1 t) hb2]
    show min (min (b.size + 1) b.max_size + ts.length) b.max_size = _
    omega

theorem store1_WF (b : ReplayBuffer) (t : StoreArgs) (h : b.WF) : (b.store1 t).WF := by
  obtain ⟨h1, h2, h3, h4, h5, h6⟩ := h
  exact ⟨by simp [ReplayBuffer.store1, ReplayBuffer.store, h1],
         by simp [ReplayBuffer.store1, ReplayBuffer.store, h2],
         by simp [ReplayBuffer.store1, ReplayBuffer.store, h3],
         by simp [ReplayBuffer.store1, ReplayBuffer.store, h4],
         by simp [ReplayBuffer.store1, ReplayBuffer.store, h5],
         by show (b.ptr + 1) % b.max_size < b.max_size
            exact Nat.mod_lt _ (by omega)⟩

theorem runPlain_WF (ts : List StoreArgs) (b : ReplayBuffer) (h : b.WF) :
    (runPlain b ts).WF := by
  induction ts generalizing b with
  | nil => exact h
  | cons t ts ih => exact ih (b.store1 t) (store1_WF b t h)

theorem init_WF (C : ℕ) (hC : 0 < C) : (ReplayBuffer.init C).WF :=
  ⟨by simp [ReplayBuffer.init], by simp [ReplayBuffer.init], by simp [ReplayBuffer.init],
   by simp [ReplayBuffer.init], by simp [ReplayBuffer.init], by simpa [ReplayBuffer.init] using hC⟩

theorem mod_slot_ne (p j k C : ℕ) (hjk : j < k) (hkC : k < j + C) :
    (p + j) % C ≠ (p + k) % C := by
  intro hEq
  have h2 : p + j ≡ p + k [MOD C] := hEq
  have h3 : j ≡ k [MOD C] := Nat.ModEq.add_left_cancel' p h2
  have h4 : C ∣ k - j := (Nat.modEq_iff_dvd' (le_of_lt hjk)).mp h3
  have h5 : C ≤ k - j := Nat.le_of_dvd (by omega) h4
  omega

theorem runPlain_slot (ts : List StoreArgs) (b : ReplayBuffer) (hb : b.WF) (j : ℕ)
    (hj : j < ts.length) (hlose : ts.length ≤ j + b.max_size) :
    slotEq (runPlain b ts) ((b.ptr + j) % b.max_size) (ts.getD j default) := by
  induction ts using List.reverseRecOn with
  | nil => simp at hj
  | append_singleton ts t ih =>
    rw [runPlain_append]
    have hwf0 : (runPlain b ts).WF := runPlain_WF ts b hb
    obtain ⟨w1, w2, w3, w4, w5, w6⟩ := hwf0
    have hms : (runPlain b ts).max_size = b.max_size := runPlain_max_size ts b
    have hptr : (runPlain b ts).ptr = (b.ptr + ts.length) % b.max_size :=
      runPlain_ptr ts b hb.2.2.2.2.2
    have hC : 0 < b.max_size := by have := hb.2.2.2.2.2; omega
    have hlApp : (ts ++ [t]).length = ts.length + 1 := by simp
    rcases Nat.lt_succ_iff_lt_or_eq.mp (by simpa using hj) with hlt | heq
    · -- position `j` was written earlier and is not overwritten by the last store
      have hne : (runPlain b ts).ptr ≠ (b.ptr + j) % b.max_size := by
        rw [hptr]
        exact (mod_slot_ne b.ptr j ts.length b.max_size hlt (by simpa using hlose)).symm
      have hgd : (ts ++ [t]).getD j default = ts.getD j default :=
        getD_append_lt _ _ _ _ hlt
      rw [hgd]
      have hrec := ih hlt (by omega)
      obtain ⟨r1, r2, r3, r4, r5⟩ := hrec
      refine ⟨?_, ?_, ?_, ?_, ?_⟩ <;>
        simp only [ReplayBuffer.store1, ReplayBuffer.store] <;>
        rw [getD_set_ne _ _ _ _ _ hne] <;> assumption
    · -- position `j` is exactly the last store
      subst heq
      have hgd : (ts ++ [t]).getD ts.length default = t := getD_snoc_length _ _ _
      rw [hgd]
      have hslot : (b.ptr + ts.length) % b.max_size = (runPlain b ts).ptr := hptr.symm
      rw [hslot]
      have hlen : (runPlain b ts).ptr < (runPlain b ts).obs_buf.length := by rw [w1, hms]; omega
      refine ⟨?_, ?_, ?_, ?_, ?_⟩ <;>
        simp only [ReplayBuffer.store1, ReplayBuffer.store] <;>
        rw [getD_set_self] <;> omega

/-- Claim C4: for every sequence of `store` calls into a replay buffer of
positive capacity `C`, starting from `ReplayBuffer.init C`: the `size` field
equals `min k C` after `k` stores (so `k` while `k ≤ C`, saturating at `C`
afterwards), the cursor equals `k % C`, and every one of the most recent
`min k C` transitions (those stores `j` with `k ≤ j + C`) sits, with all
five fields, in slot `j % C` — i.e. FIFO eviction verified by content. -/
theorem replay_buffer_fifo (C : ℕ) (hC : 0 < C) (ts : List StoreArgs) :
    (runPlain (ReplayBuffer.init C) ts).size = min ts.length C ∧
    (runPlain (ReplayBuffer.init C) ts).ptr = ts.length % C ∧
    ∀ j : ℕ, j < ts.length → ts.length ≤ j + C →
      slotEq (runPlain (ReplayBuffer.init C) ts) (j % C) (ts.getD j default) := by
  refine ⟨?_, ?_, ?_⟩
  · have h := runPlain_size ts (ReplayBuffer.init C) (by simp [ReplayBuffer.init])
    simpa [ReplayBuffer.init] using h
  · have h := runPlain_ptr ts (ReplayBuffer.init C) (by simpa [ReplayBuffer.init] using hC)
    simpa [ReplayBuffer.init] using h
  · intro j hj hlose
    have h := runPlain_slot ts (ReplayBuffer.init C) (init_WF C hC) j hj
      (by simpa [ReplayBuffer.init] using hlose)
    simpa [ReplayBuffer.init] using h

/-- Witness for C4: capacity 2 and three stores (one wrap-around). -/
theorem replay_buffer_fifo_witness :
    (0 < 2) ∧
    ((runPlain (ReplayBuffer.init 2) [⟨1, 2, 3, 4, false⟩, ⟨5, 6, 7, 8, true⟩, ⟨9, 10, 11, 12, false⟩]).size
        = min ([⟨1, 2, 3, 4, false⟩, ⟨5, 6, 7, 8, true⟩, (⟨9, 10, 11, 12, false⟩ : StoreArgs)] : List StoreArgs).length 2 ∧
     (runPlain (ReplayBuffer.init 2) [⟨1, 2, 3, 4, false⟩, ⟨5, 6, 7, 8, true⟩, ⟨9, 10, 11, 12, false⟩]).ptr
        = ([⟨1, 2, 3, 4, false⟩, ⟨5, 6, 7, 8, true⟩, (⟨9, 10, 11, 12, false⟩ : StoreArgs)] : List StoreArgs).length % 2 ∧
     ∀ j : ℕ, j < ([⟨1, 2, 3, 4, false⟩, ⟨5, 6, 7, 8, true⟩, (⟨9, 10, 11, 12, false⟩ : StoreArgs)] : List StoreArgs).length →
       ([⟨1, 2, 3, 4, false⟩, ⟨5, 6, 7, 8, true⟩, (⟨9, 10, 11, 12, false⟩ : StoreArgs)] : List StoreArgs).length ≤ j + 2 →
       slotEq (runPlain (ReplayBuffer.init 2) [⟨1, 2, 3, 4, false⟩, ⟨5, 6, 7, 8, true⟩, ⟨9, 10, 11, 12, false⟩]) (j % 2)
         (([⟨1, 2, 3, 4, false⟩, ⟨5, 6, 7, 8, true⟩, (⟨9, 10, 11, 12, false⟩ : StoreArgs)] : List StoreArgs).getD j default)) :=
  ⟨by omega, replay_buffer_fifo 2 (by omega) [⟨1, 2, 3, 4, false⟩, ⟨5, 6, 7, 8, true⟩, ⟨9, 10, 11, 12, false⟩]⟩

/-! ### Sampling (claim C7) -/

/-- Claim C7: `sample_batch` on an empty buffer fails loudly (the numpy
`randint` raises, modelled as `none`); on a buffer with `size ≥ 1` it
succeeds and every one of its `batch_size` drawn indices is strictly below
the current `size`, whatever the random draws are; and every index in
`[0, size)` is reachable at every batch position for a suitable draw, i.e.
the draws range over exactly `[0, size)` with replacement. -/
theorem sample_batch_bounds (b : ReplayBuffer) (batch_size : ℕ) (seeds : List ℕ) :
    (b.size = 0 → b.sample_batch batch_size seeds = none) ∧
    (0 < b.size →
      ∀ idxs : List ℕ, b.sample_idxs batch_size seeds = some idxs →
        idxs.length = batch_size ∧ ∀ i ∈ idxs, i < b.size) ∧
    (0 < b.size → ∀ j : ℕ, j < b.size → ∀ k : ℕ, k < batch_size →
      ∃ seeds2 idxs2, b.sample_idxs batch_size seeds2 = some idxs2 ∧ idxs2.getD k 0 = j) := by
  refine ⟨?_, ?_, ?_⟩
  · intro h0
    simp [ReplayBuffer.sample_batch, ReplayBuffer.sample_idxs, h0]
  · intro hpos idxs hidxs
    rw [ReplayBuffer.sample_idxs, if_pos hpos] at hidxs
    obtain rfl : (List.range batch_size).map (fun k => seeds.getD k 0 % b.size) = idxs :=
      Option.some_injective _ hidxs
    constructor
    · simp
    · intro i hi
      obtain ⟨k, _, rfl⟩ := List.mem_map.mp hi
      exact Nat.mod_lt _ hpos
  · intro hpos j hj k hk
    refine ⟨List.replicate batch_size j,
      (List.range batch_size).map (fun k2 => (List.replicate batch_size j).getD k2 0 % b.size),
      by rw [ReplayBuffer.sample_idxs, if_pos hpos], ?_⟩
    rw [getD_map_lt _ _ _ 0 _ (by simpa using hk)]
    have hr : (List.range batch_size).getD k 0 = k := by
      rw [List.getD_eq_getElem?_getD, List.getElem?_range hk]
      rfl
    rw [hr]
    have hrep : (List.replicate batch_size j).getD k 0 = j := by
      rw [List.getD_eq_getElem?_getD, List.getElem?_replicate]
      simp [hk]
    rw [hrep, Nat.mod_eq_of_lt hj]

/-- Witness for C7: a buffer of size 1 (after one store into capacity 2). -/
theorem sample_batch_bounds_witness :
    ((runPlain (ReplayBuffer.init 2) [⟨1, 2, 3, 4, false⟩]).size = 0 →
      (runPlain (ReplayBuffer.init 2) [⟨1, 2, 3, 4, false⟩]).sample_batch 3 [5, 6, 7] = none) ∧
    (0 < (runPlain (ReplayBuffer.init 2) [⟨1, 2, 3, 4, false⟩]).size →
      ∀ idxs : List ℕ,
        (runPlain (ReplayBuffer.init 2) [⟨1, 2, 3, 4, false⟩]).sample_idxs 3 [5, 6, 7] = some idxs →
        idxs.length = 3 ∧ ∀ i ∈ idxs, i < (runPlain (ReplayBuffer.init 2) [⟨1, 2, 3, 4, false⟩]).size) ∧
    (0 < (runPlain (ReplayBuffer.init 2) [⟨1, 2, 3, 4, false⟩]).size →
      ∀ j : ℕ, j < (runPlain (ReplayBuffer.init 2) [⟨1, 2, 3, 4, false⟩]).size →
      ∀ k : ℕ, k < 3 →
      ∃ seeds2 idxs2,
        (runPlain (ReplayBuffer.init 2) [⟨1, 2, 3, 4, false⟩]).sample_idxs 3 seeds2 = some idxs2 ∧
        idxs2.getD k 0 = j) :=
  sample_batch_bounds (runPlain (ReplayBuffer.init 2) [⟨1, 2, 3, 4, false⟩]) 3 [5, 6, 7]

/-! ### Polyak target-network update (claim C6) -/

/-- Claim C6: in the abstracted `update`, the target parameter vector is
rewritten exactly on calls with `timer % policy_delay = 0` — the same calls
that run the policy step — where each entry becomes
`polyak * old_target + (1 - polyak) * live` (with `live` the post-step live
parameters); on every other call the target vector is untouched, and no
other assignment to it exists in the model of `update`. -/
theorem polyak_update_exact (polyak : ℚ) (policy_delay : ℕ)
    (qstep pistep : List ℚ → List ℚ) (s : TD3Params) (timer : ℕ) :
    (timer % policy_delay ≠ 0 →
      (td3_update polyak policy_delay qstep pistep s timer).targ = s.targ) ∧
    (timer % policy_delay = 0 →
      ((td3_update polyak policy_delay qstep pistep s timer).live
          = pistep (qstep s.live)) ∧
      ∀ i : ℕ, i < s.targ.length → i < (pistep (qstep s.live)).length →
        (td3_update polyak policy_delay qstep pistep s timer).targ.getD i 0
          = s.targ.getD i 0 * polyak
            + (1 - polyak) * (pistep (qstep s.live)).getD i 0) := by
  constructor
  · intro hne
    simp [td3_update, hne]
  · intro heq
    refine ⟨by simp [td3_update, heq], ?_⟩
    intro i h1 h2
    simp only [td3_update, heq, if_pos]
    exact getD_zipWith_lt _ _ _ _ 0 0 0 h1 h2

/-- Witness for C6: a single-parameter network, `polyak = 3/4`, live
parameter `4`, target `8`, `policy_delay = 2`, at `timer = 0` (sync) with
identity gradient steps. -/
theorem polyak_update_exact_witness :
    ((0 % 2 ≠ 0 → (td3_update (3/4) 2 id id ⟨[4], [8]⟩ 0).targ = [8]) ∧
     (0 % 2 = 0 →
       ((td3_update (3/4) 2 id id ⟨[4], [8]⟩ 0).live = id (id [4])) ∧
       ∀ i : ℕ, i < ([8] : List ℚ).length → i < (id (id ([4] : List ℚ))).length →
         (td3_update (3/4) 2 id id ⟨[4], [8]⟩ 0).targ.getD i 0
           = ([8] : List ℚ).getD i 0 * (3/4)
             + (1 - 3/4) * (id (id ([4] : List ℚ))).getD i 0)) :=
  polyak_update_exact (3/4) 2 id id ⟨[4], [8]⟩ 0

/-! ### Critic update target (claim C5) -/

/-- Claim C5: `compute_loss_q` is the sum of the mean-squared errors of both
live Q-networks against one shared target list, and that target, at every
batch position, equals
`reward + gamma^multistep_n * (1 - done) * min(Q1_targ, Q2_targ)(next_obs, a2)`
with `a2 = clamp(target_policy(next_obs) + clip(epsraw * target_noise,
-noise_clip, noise_clip), -act_limit, act_limit)`.  The target list
`backup_list` is built from the target networks only — the live networks
`q1`, `q2` do not occur in it, which is the stop-gradient content of the
claim in this functional model. -/
theorem critic_target_formula (q1 q2 : ℚ → ℚ → ℚ) (pit : ℚ → ℚ) (q1t q2t : ℚ → ℚ → ℚ)
    (gamma : ℚ) (multistep_n : ℕ) (target_noise noise_clip act_limit : ℚ)
    (o a r o2 d epsraw : List ℚ)
    (ha : a.length = o.length) (hr : r.length = o.length) (ho2 : o2.length = o.length)
    (hd : d.length = o.length) (he : epsraw.length = o.length) :
    compute_loss_q q1 q2 pit q1t q2t gamma multistep_n target_noise noise_clip act_limit
        o a r o2 d epsraw
      = mse (List.zipWith q1 o a)
          (backup_list pit q1t q2t gamma multistep_n target_noise noise_clip act_limit
            r o2 d epsraw)
        + mse (List.zipWith q2 o a)
          (backup_list pit q1t q2t gamma multistep_n target_noise noise_clip act_limit
            r o2 d epsraw) ∧
    ∀ i : ℕ, i < o.length →
      (backup_list pit q1t q2t gamma multistep_n target_noise noise_clip act_limit
          r o2 d epsraw).getD i 0
        = backup_spec pit q1t q2t gamma multistep_n target_noise noise_clip act_limit
            (r.getD i 0) (o2.getD i 0) (d.getD i 0) (epsraw.getD i 0) ∧
      (a2_list pit target_noise noise_clip act_limit o2 epsraw).getD i 0
        = target_action_spec pit target_noise noise_clip act_limit
            (o2.getD i 0) (epsraw.getD i 0) := by
  have hAlen : (a2_list pit target_noise noise_clip act_limit o2 epsraw).length = o.length := by
    simp [a2_list, List.length_zipWith, ho2, he]
  refine ⟨rfl, ?_⟩
  intro i hi
  have hA : (a2_list pit target_noise noise_clip act_limit o2 epsraw).getD i 0
      = target_action_spec pit target_noise noise_clip act_limit
          (o2.getD i 0) (epsraw.getD i 0) := by
    show ((List.zipWith (fun x y => x + y) (o2.map pit)
            ((epsraw.map (fun x => x * target_noise)).map
              (fun x => tclampS x (-noise_clip) noise_clip))).map
          (fun x => tclampS x (-act_limit) act_limit)).getD i 0 = _
    rw [getD_map_lt _ _ _ 0 _ (by simp [List.length_zipWith, ho2, he]; omega)]
    rw [getD_zipWith_lt _ _ _ _ 0 0 0 (by simp [ho2]; omega) (by simp [he]; omega)]
    rw [getD_map_lt _ _ _ 0 _ (by simp [ho2]; omega)]
    rw [getD_map_lt _ _ _ 0 _ (by simp [he]; omega)]
    rw [getD_map_lt _ _ _ 0 _ (by simp [he]; omega)]
    rfl
  refine ⟨?_, hA⟩
  show (List.zipWith (fun x y => x + y) r
        (List.zipWith (fun dd qq => gamma ^ multistep_n * (1 - dd) * qq) d
          (q_pi_targ_list q1t q2t o2
            (a2_list pit target_noise noise_clip act_limit o2 epsraw)))).getD i 0 = _
  have hqlen : (q_pi_targ_list q1t q2t o2
      (a2_list pit target_noise noise_clip act_limit o2 epsraw)).length = o.length := by
    simp [q_pi_targ_list, List.length_zipWith, ho2, hAlen]
  rw [getD_zipWith_lt _ _ _ _ 0 0 0 (by omega)
      (by simp [List.length_zipWith, hd, hqlen]; omega)]
  rw [getD_zipWith_lt _ _ _ _ 0 0 0 (by omega) (by omega)]
  show r.getD i 0 + gamma ^ multistep_n * (1 - d.getD i 0) *
      (List.zipWith min
        (List.zipWith q1t o2 (a2_list pit target_noise noise_clip act_limit o2 epsraw))
        (List.zipWith q2t o2 (a2_list pit target_noise noise_clip act_limit o2 epsraw))).getD i 0
      = _
  rw [getD_zipWith_lt _ _ _ _ 0 0 0 (by simp [List.length_zipWith, ho2, hAlen]; omega)
      (by simp [List.length_zipWith, ho2, hAlen]; omega)]
  rw [getD_zipWith_lt _ _ _ _ 0 0 0 (by omega) (by omega)]
  rw [getD_zipWith_lt _ _ _ _ 0 0 0 (by omega) (by omega)]
  rw [hA]
  rfl

/-- Witness for C5 at a one-element batch with concrete networks and
hyperparameters. -/
theorem critic_target_formula_witness :
    (compute_loss_q (fun x y => x * y) (fun _ _ => 0) (fun x => x) (fun x y => x + y)
        (fun x y => x - y) (1/2) 2 1 1 2 [1] [2] [3] [4] [0] [1]
      = mse (List.zipWith (fun x y => x * y) [1] [2])
          (backup_list (fun x => x) (fun x y => x + y) (fun x y => x - y) (1/2) 2 1 1 2
            [3] [4] [0] [1])
        + mse (List.zipWith (fun _ _ => (0 : ℚ)) [1] [2])
          (backup_list (fun x => x) (fun x y => x + y) (fun x y => x - y) (1/2) 2 1 1 2
            [3] [4] [0] [1])) ∧
    ∀ i : ℕ, i < ([1] : List ℚ).length →
      (backup_list (fun x => x) (fun x y => x + y) (fun x y => x - y) (1/2) 2 1 1 2
          [3] [4] [0] [1]).getD i 0
        = backup_spec (fun x => x) (fun x y => x + y) (fun x y => x - y) (1/2) 2 1 1 2
            (([3] : List ℚ).getD i 0) (([4] : List ℚ).getD i 0) (([0] : List ℚ).getD i 0)
            (([1] : List ℚ).getD i 0) ∧
      (a2_list (fun x => x) 1 1 2 [4] [1]).getD i 0
        = target_action_spec (fun x => x) 1 1 2 (([4] : List ℚ).getD i 0)
            (([1] : List ℚ).getD i 0) :=
  critic_target_formula (fun x y => x * y) (fun _ _ => 0) (fun x => x) (fun x y => x + y)
    (fun x y => x - y) (1/2) 2 1 1 2 [1] [2] [3] [4] [0] [1] rfl rfl rfl rfl rfl

/-! ### The flush loop of the multi-step buffer (claims C3 and C2) -/

theorem msFlushGo_eq_runPlain (n : ℕ) (obss : List ℚ) (dones : List Bool) :
    ∀ (z : List (ℚ × ℚ × ℚ × Bool)) (i : ℕ) (b : ReplayBuffer),
      msFlushGo n obss dones i z b = runPlain b (flushInsertions n obss dones i z) := by
  intro z
  induction z with
  | nil => intro i b; rfl
  | cons p rest ih =>
    intro i b
    obtain ⟨obs, act, ret, dn⟩ := p
    show msFlushGo n obss dones (i + 1) rest _ = _
    rw [ih (i + 1)]
    rw [show flushInsertions n obss dones i ((obs, act, ret, dn) :: rest)
        = (if i + n < obss.length then
             ({ obs := obs, act := act, rew := ret, next_obs := obss.getD (i + n) 0,
                done := dones.getD (i + n) false } : StoreArgs)
           else { obs := obs, act := act, rew := ret, next_obs := obs, done := true })
          :: flushInsertions n obss dones (i + 1) rest from rfl]
    show _ = runPlain (ReplayBuffer.store1 b _) (flushInsertions n obss dones (i + 1) rest)
    congr 1
    by_cases hc : i + n < obss.length
    · simp [hc, ReplayBuffer.store1, ReplayBuffer.store]
    · simp [hc, ReplayBuffer.store1, ReplayBuffer.store]

theorem flushInsertions_length (n : ℕ) (obss : List ℚ) (dones : List Bool) :
    ∀ (z : List (ℚ × ℚ × ℚ × Bool)) (i : ℕ),
      (flushInsertions n obss dones i z).length = z.length := by
  intro z
  induction z with
  | nil => intro i; rfl
  | cons p rest ih =>
    intro i
    obtain ⟨obs, act, ret, dn⟩ := p
    show (_ :: flushInsertions n obss dones (i + 1) rest).length = rest.length + 1
    simp [ih (i + 1)]

theorem flushInsertions_getD (n : ℕ) (obss : List ℚ) (dones : List Bool) :
    ∀ (z : List (ℚ × ℚ × ℚ × Bool)) (i0 j : ℕ), j < z.length →
      (flushInsertions n obss dones i0 z).getD j default
        = (if i0 + j + n < obss.length then
             ({ obs := (z.getD j (0, 0, 0, false)).1, act := (z.getD j (0, 0, 0, false)).2.1,
                rew := (z.getD j (0, 0, 0, false)).2.2.1,
                next_obs := obss.getD (i0 + j + n) 0,
                done := dones.getD (i0 + j + n) false } : StoreArgs)
           else
             { obs := (z.getD j (0, 0, 0, false)).1, act := (z.getD j (0, 0, 0, false)).2.1,
               rew := (z.getD j (0, 0, 0, false)).2.2.1,
               next_obs := (z.getD j (0, 0, 0, false)).1, done := true }) := by
  intro z
  induction z with
  | nil => intro i0 j hj; simp at hj
  | cons p rest ih =>
    intro i0 j hj
    obtain ⟨obs, act, ret, dn⟩ := p
    cases j with
    | zero => rfl
    | succ j =>
      show (flushInsertions n obss dones (i0 + 1) rest).getD j default = _
      rw [ih (i0 + 1) j (by simpa using hj)]
      simp only [List.getD_cons_succ]
      rw [show i0 + 1 + j + n = i0 + (j + 1) + n from by omega]

theorem getD_zip_lt {α β : Type} (a : List α) (b : List β) (i : ℕ) (da : α) (db : β)
    (h1 : i < a.length) (h2 : i < b.length) :
    (a.zip b).getD i (da, db) = (a.getD i da, b.getD i db) := by
  show (List.zipWith Prod.mk a b).getD i (da, db) = _
  exact getD_zipWith_lt _ _ _ _ da db (da, db) h1 h2

/-- Amended claim C3: when the multi-step buffer flushes a trajectory of
length `T` (equal-length `obss`/`acts`/`rets`/`dones`, `T` within capacity),
the transition inserted for position `i` carries `obs/act` of position `i`,
reward `rets[i]` (the n-step return handed over by the accumulator), and:
if `i + n < T` its `next_obs`/`done` come from trajectory position `i + n`,
otherwise `next_obs` is position `i`'s own `obs` — a don't-care placeholder,
NOT the final step's observation — with `done` forced true. -/
theorem msFlush_slot (n : ℕ) (obss acts rets : List ℚ) (dones : List Bool)
    (b : ReplayBuffer) (hb : b.WF)
    (hA : acts.length = obss.length) (hR : rets.length = obss.length)
    (hD : dones.length = obss.length) (hcap : obss.length ≤ b.max_size)
    (i : ℕ) (hi : i < obss.length) :
    slotEq (msFlush n obss acts rets dones b) ((b.ptr + i) % b.max_size)
      (if i + n < obss.length then
         { obs := obss.getD i 0, act := acts.getD i 0, rew := rets.getD i 0,
           next_obs := obss.getD (i + n) 0, done := dones.getD (i + n) false }
       else
         { obs := obss.getD i 0, act := acts.getD i 0, rew := rets.getD i 0,
           next_obs := obss.getD i 0, done := true }) := by
  have hzlen : (obss.zip (acts.zip (rets.zip dones))).length = obss.length := by
    simp [List.length_zip, hA, hR, hD]
  have htslen : (flushInsertions n obss dones 0 (obss.zip (acts.zip (rets.zip dones)))).length
      = obss.length := by
    rw [flushInsertions_length, hzlen]
  rw [msFlush, msFlushGo_eq_runPlain]
  have hslot := runPlain_slot (flushInsertions n obss dones 0 (obss.zip (acts.zip (rets.zip dones))))
    b hb i (by omega) (by omega)
  have hz : (obss.zip (acts.zip (rets.zip dones))).getD i (0, 0, 0, false)
      = (obss.getD i 0, acts.getD i 0, rets.getD i 0, dones.getD i false) := by
    rw [getD_zip_lt _ _ _ _ _ hi (by simp [List.length_zip, hA, hR, hD]; omega)]
    rw [getD_zip_lt _ _ _ _ _ (by omega) (by simp [List.length_zip, hR, hD]; omega)]
    rw [getD_zip_lt _ _ _ _ _ (by omega) (by omega)]
  have hins := flushInsertions_getD n obss dones (obss.zip (acts.zip (rets.zip dones))) 0 i
    (by omega)
  rw [hz] at hins
  simp only [Nat.zero_add] at hins
  rw [hins] at hslot
  exact hslot

/-- Counterexample to C3 as stated: flushing the trajectory
`obss = [5, 7, 9]`, `n = 2`, at position `i = 1` (where `i + n = 3 ≥ T = 3`)
stores `next_obs = 7` — the position's own observation — not the final
step's observation `9` as the claim asserts. -/
theorem msFlush_placeholder_not_final :
    (msFlush 2 [5, 7, 9] [1, 1, 1] [0, 0, 0] [false, false, true]
        (ReplayBuffer.init 4)).obs2_buf.getD 1 0 = 7 ∧ (7 : ℚ) ≠ 9 := by
  constructor
  · norm_num [msFlush, msFlushGo, ReplayBuffer.init, ReplayBuffer.store, List.replicate]
  · norm_num

/-- Witness for the amended C3 at a concrete flush (capacity 4, `n = 2`,
trajectory length 3, position 1). -/
theorem msFlush_slot_witness :
    slotEq (msFlush 2 [5, 7, 9] [1, 1, 1] [0, 0, 0] [false, false, true] (ReplayBuffer.init 4))
      (((ReplayBuffer.init 4).ptr + 1) % (ReplayBuffer.init 4).max_size)
      (if 1 + 2 < ([5, 7, 9] : List ℚ).length then
         { obs := ([5, 7, 9] : List ℚ).getD 1 0, act := ([1, 1, 1] : List ℚ).getD 1 0,
           rew := ([0, 0, 0] : List ℚ).getD 1 0,
           next_obs := ([5, 7, 9] : List ℚ).getD (1 + 2) 0,
           done := ([false, false, true] : List Bool).getD (1 + 2) false }
       else
         { obs := ([5, 7, 9] : List ℚ).getD 1 0, act := ([1, 1, 1] : List ℚ).getD 1 0,
           rew := ([0, 0, 0] : List ℚ).getD 1 0,
           next_obs := ([5, 7, 9] : List ℚ).getD 1 0, done := true }) :=
  msFlush_slot 2 [5, 7, 9] [1, 1, 1] [0, 0, 0] [false, false, true] (ReplayBuffer.init 4)
    (init_WF 4 (by omega)) rfl rfl rfl (by norm_num [ReplayBuffer.init]) 1 (by norm_num)

/-! ### Case analysis of `MultiStepReplayBuffer.store` -/

theorem store1_not_done_not_ready (m : MultiStepReplayBuffer) (t : StoreArgs)
    (ht : t.done = false) (hready : m.intermediate.ready_to_reset = false)
    (hfull : m.intermediate.full = false) :
    m.store1 t = { m with intermediate := { m.intermediate with
      obs_buf := m.intermediate.obs_buf ++ [t.obs],
      act_buf := m.intermediate.act_buf ++ [t.act],
      rew_buf := m.intermediate.rew_buf ++ [t.rew],
      done_buf := m.intermediate.done_buf ++ [t.done] } } := by
  simp [MultiStepReplayBuffer.store1, MultiStepReplayBuffer.store,
    MultiStepIntermediateBuffer.store, ht, hready, hfull]

theorem store1_not_done_ready (m : MultiStepReplayBuffer) (t : StoreArgs)
    (ht : t.done = false) (hready : m.intermediate.ready_to_reset = true) :
    m.store1 t = { m with intermediate := { m.intermediate with
      ready_to_reset := false, full := false,
      obs_buf := [t.obs], act_buf := [t.act], rew_buf := [t.rew],
      done_buf := [t.done] } } := by
  simp [MultiStepReplayBuffer.store1, MultiStepReplayBuffer.store,
    MultiStepIntermediateBuffer.store, MultiStepIntermediateBuffer.reset, ht, hready]

theorem store1_done_not_ready (m : MultiStepReplayBuffer) (t : StoreArgs)
    (ht : t.done = true) (hready : m.intermediate.ready_to_reset = false) :
    m.store1 t = { m with
      buf := msFlush m.n (m.intermediate.obs_buf ++ [t.obs])
        (m.intermediate.act_buf ++ [t.act])
        (calculate_nstep_returns (m.intermediate.rew_buf ++ [t.rew])
          m.intermediate.n m.intermediate.gamma)
        (m.intermediate.done_buf ++ [t.done]) m.buf,
      intermediate := { m.intermediate with
        ready_to_reset := true, full := true,
        obs_buf := m.intermediate.obs_buf ++ [t.obs],
        act_buf := m.intermediate.act_buf ++ [t.act],
        rew_buf := m.intermediate.rew_buf ++ [t.rew],
        done_buf := m.intermediate.done_buf ++ [t.done],
        n_step_returns := calculate_nstep_returns (m.intermediate.rew_buf ++ [t.rew])
          m.intermediate.n m.intermediate.gamma } } := by
  simp [MultiStepReplayBuffer.store1, MultiStepReplayBuffer.store,
    MultiStepIntermediateBuffer.store, MultiStepIntermediateBuffer.get_trajectory,
    ht, hready]

theorem store1_done_ready (m : MultiStepReplayBuffer) (t : StoreArgs)
    (ht : t.done = true) (hready : m.intermediate.ready_to_reset = true) :
    m.store1 t = { m with
      buf := msFlush m.n [t.obs] [t.act]
        (calculate_nstep_returns [t.rew] m.intermediate.n m.intermediate.gamma)
        [t.done] m.buf,
      intermediate := { m.intermediate with
        ready_to_reset := true, full := true,
        obs_buf := [t.obs], act_buf := [t.act], rew_buf := [t.rew],
        done_buf := [t.done],
        n_step_returns := calculate_nstep_returns [t.rew]
          m.intermediate.n m.intermediate.gamma } } := by
  simp [MultiStepReplayBuffer.store1, MultiStepReplayBuffer.store,
    MultiStepIntermediateBuffer.store, MultiStepIntermediateBuffer.get_trajectory,
    MultiStepIntermediateBuffer.reset, ht, hready]

/-! ### Episode processing in the multi-step buffer (claim C2) -/

theorem runMS_episode_aux :
    ∀ (es : List StoreArgs), (∀ t ∈ es, t.done = false) →
    ∀ (e : StoreArgs), e.done = true →
    ∀ (m : MultiStepReplayBuffer) (acc : List StoreArgs),
      m.intermediate.ready_to_reset = false →
      m.intermediate.full = false →
      m.intermediate.obs_buf = acc.map StoreArgs.obs →
      m.intermediate.act_buf = acc.map StoreArgs.act →
      m.intermediate.rew_buf = acc.map StoreArgs.rew →
      m.intermediate.done_buf = acc.map StoreArgs.done →
      runMS m (es ++ [e])
        = { buf := msFlush m.n ((acc ++ es ++ [e]).map StoreArgs.obs)
              ((acc ++ es ++ [e]).map StoreArgs.act)
              (calculate_nstep_returns ((acc ++ es ++ [e]).map StoreArgs.rew)
                m.intermediate.n m.intermediate.gamma)
              ((acc ++ es ++ [e]).map StoreArgs.done) m.buf,
            intermediate := { m.intermediate with
              ready_to_reset := true, full := true,
              obs_buf := (acc ++ es ++ [e]).map StoreArgs.obs,
              act_buf := (acc ++ es ++ [e]).map StoreArgs.act,
              rew_buf := (acc ++ es ++ [e]).map StoreArgs.rew,
              done_buf := (acc ++ es ++ [e]).map StoreArgs.done,
              n_step_returns := calculate_nstep_returns ((acc ++ es ++ [e]).map StoreArgs.rew)
                m.intermediate.n m.intermediate.gamma },
            n := m.n } := by
  intro es
  induction es with
  | nil =>
    intro _ e he m acc hready hfull hobs hact hrew hdone
    show m.store1 e = _
    rw [store1_done_not_ready m e he hready]
    rw [hobs, hact, hrew, hdone]
    simp [List.map_append]
  | cons t es ih =>
    intro hts e he m acc hready hfull hobs hact hrew hdone
    have ht : t.done = false := hts t (by simp)
    have hkey := store1_not_done_not_ready m t ht hready hfull
    have h1 : (m.store1 t).intermediate.ready_to_reset = false := by rw [hkey]; exact hready
    have h2 : (m.store1 t).intermediate.full = false := by rw [hkey]; exact hfull
    have h3 : (m.store1 t).intermediate.obs_buf = (acc ++ [t]).map StoreArgs.obs := by
      rw [hkey]; simp [hobs]
    have h4 : (m.store1 t).intermediate.act_buf = (acc ++ [t]).map StoreArgs.act := by
      rw [hkey]; simp [hact]
    have h5 : (m.store1 t).intermediate.rew_buf = (acc ++ [t]).map StoreArgs.rew := by
      rw [hkey]; simp [hrew]
    have h6 : (m.store1 t).intermediate.done_buf = (acc ++ [t]).map StoreArgs.done := by
      rw [hkey]; simp [hdone]
    have hrec := ih (fun u hu => hts u (by simp [hu])) e he (m.store1 t) (acc ++ [t])
      h1 h2 h3 h4 h5 h6
    show runMS (m.store1 t) (es ++ [e]) = _
    rw [hrec, hkey]
    simp

theorem runMS_episode :
    ∀ (es : List StoreArgs), (∀ t ∈ es, t.done = false) →
    ∀ (e : StoreArgs), e.done = true →
    ∀ (m : MultiStepReplayBuffer), m.intermediate.ready_to_reset = true →
      runMS m (es ++ [e])
        = { buf := msFlush m.n ((es ++ [e]).map StoreArgs.obs)
              ((es ++ [e]).map StoreArgs.act)
              (calculate_nstep_returns ((es ++ [e]).map StoreArgs.rew)
                m.intermediate.n m.intermediate.gamma)
              ((es ++ [e]).map StoreArgs.done) m.buf,
            intermediate := { m.intermediate with
              ready_to_reset := true, full := true,
              obs_buf := (es ++ [e]).map StoreArgs.obs,
              act_buf := (es ++ [e]).map StoreArgs.act,
              rew_buf := (es ++ [e]).map StoreArgs.rew,
              done_buf := (es ++ [e]).map StoreArgs.done,
              n_step_returns := calculate_nstep_returns ((es ++ [e]).map StoreArgs.rew)
                m.intermediate.n m.intermediate.gamma },
            n := m.n } := by
  intro es
  cases es with
  | nil =>
    intro _ e he m hready
    show m.store1 e = _
    rw [store1_done_ready m e he hready]
    simp
  | cons t es =>
    intro hts e he m hready
    have ht : t.done = false := hts t (by simp)
    show runMS (m.store1 t) (es ++ [e]) = _
    rw [store1_not_done_ready m t ht hready]
    rw [runMS_episode_aux es (fun u hu => hts u (by simp [hu])) e he _ [t]
      rfl rfl rfl rfl rfl rfl]
    simp

theorem runPlain_AgreeCore :
    ∀ (ts1 ts2 : List StoreArgs) (b1 b2 : ReplayBuffer),
      ts1.length = ts2.length →
      (∀ j : ℕ, j < ts1.length →
        (ts1.getD j default).obs = (ts2.getD j default).obs ∧
        (ts1.getD j default).act = (ts2.getD j default).act ∧
        (ts1.getD j default).rew = (ts2.getD j default).rew) →
      AgreeCore b1 b2 → AgreeCore (runPlain b1 ts1) (runPlain b2 ts2) := by
  intro ts1
  induction ts1 with
  | nil =>
    intro ts2 b1 b2 hlen _ hb
    cases ts2 with
    | nil => exact hb
    | cons t2 rest2 => simp at hlen
  | cons t1 rest1 ih =>
    intro ts2 b1 b2 hlen hpt hb
    cases ts2 with
    | nil => simp at hlen
    | cons t2 rest2 =>
      show AgreeCore (runPlain (b1.store1 t1) rest1) (runPlain (b2.store1 t2) rest2)
      obtain ⟨e1, e2, e3, e4, e5, e6⟩ := hb
      have h0 := hpt 0 (by simp)
      simp only [List.getD_cons_zero] at h0
      obtain ⟨o0, a0, r0⟩ := h0
      refine ih rest2 _ _ (by simpa using hlen) ?_ ?_
      · intro j hj
        have hjj := hpt (j + 1) (by simpa using hj)
        simpa only [List.getD_cons_succ] using hjj
      · exact ⟨by simp [ReplayBuffer.store1, ReplayBuffer.store, e1, e4, o0],
               by simp [ReplayBuffer.store1, ReplayBuffer.store, e2, e4, a0],
               by simp [ReplayBuffer.store1, ReplayBuffer.store, e3, e4, r0],
               by simp [ReplayBuffer.store1, ReplayBuffer.store, e4, e6],
               by simp [ReplayBuffer.store1, ReplayBuffer.store, e5, e6],
               by simp [ReplayBuffer.store1, ReplayBuffer.store, e6]⟩

theorem calculate_nstep_returns_one (r : List ℚ) (gamma : ℚ) :
    calculate_nstep_returns r 1 gamma = r := rfl

theorem flush_episode_agree (eps : List StoreArgs) (gamma : ℚ) (b c : ReplayBuffer)
    (hb : AgreeCore b c) :
    AgreeCore (msFlush 1 (eps.map StoreArgs.obs) (eps.map StoreArgs.act)
        (calculate_nstep_returns (eps.map StoreArgs.rew) 1 gamma)
        (eps.map StoreArgs.done) b)
      (runPlain c eps) := by
  rw [calculate_nstep_returns_one]
  rw [msFlush, msFlushGo_eq_runPlain]
  have hzlen : ((eps.map StoreArgs.obs).zip ((eps.map StoreArgs.act).zip
      ((eps.map StoreArgs.rew).zip (eps.map StoreArgs.done)))).length = eps.length := by
    simp [List.length_zip]
  refine runPlain_AgreeCore _ _ _ _ ?_ ?_ hb
  · rw [flushInsertions_length, hzlen]
  · intro j hj
    have hj2 : j < eps.length := by
      rw [flushInsertions_length, hzlen] at hj
      exact hj
    have hz : ((eps.map StoreArgs.obs).zip ((eps.map StoreArgs.act).zip
        ((eps.map StoreArgs.rew).zip (eps.map StoreArgs.done)))).getD j (0, 0, 0, false)
        = ((eps.getD j default).obs, (eps.getD j default).act,
           (eps.getD j default).rew, (eps.getD j default).done) := by
      rw [getD_zip_lt _ _ _ _ _ (by simpa using hj2) (by simp [List.length_zip]; omega)]
      rw [getD_zip_lt _ _ _ _ _ (by simpa using hj2) (by simp [List.length_zip]; omega)]
      rw [getD_zip_lt _ _ _ _ _ (by simpa using hj2) (by simpa using hj2)]
      rw [getD_map_lt _ _ _ default _ (by simpa using hj2),
        getD_map_lt _ _ _ default _ (by simpa using hj2),
        getD_map_lt _ _ _ default _ (by simpa using hj2),
        getD_map_lt _ _ _ default _ (by simpa using hj2)]
    rw [flushInsertions_getD 1 _ _ _ 0 j (by rw [hzlen]; exact hj2), hz]
    by_cases hc : 0 + j + 1 < (eps.map StoreArgs.obs).length
    · rw [if_pos hc]
      exact ⟨rfl, rfl, rfl⟩
    · rw [if_neg hc]
      exact ⟨rfl, rfl, rfl⟩

theorem runMS_plain_agree :
    ∀ (ts : List StoreArgs), CompleteEpisodes ts →
    ∀ (m : MultiStepReplayBuffer) (c : ReplayBuffer),
      m.n = 1 → m.intermediate.n = 1 → m.intermediate.ready_to_reset = true →
      AgreeCore m.buf c →
      AgreeCore (runMS m ts).buf (runPlain c ts) ∧
      (runMS m ts).n = 1 ∧ (runMS m ts).intermediate.n = 1 ∧
      (runMS m ts).intermediate.ready_to_reset = true := by
  intro ts h
  induction h with
  | nil => intro m c h1 h2 h3 hb; exact ⟨hb, h1, h2, h3⟩
  | episode es e rest hes he hrest ih =>
    intro m c h1 h2 h3 hb
    have hpre := runMS_episode es hes e he m h3
    have hMS : runMS m (es ++ e :: rest) = runMS (runMS m (es ++ [e])) rest := by
      rw [show es ++ e :: rest = (es ++ [e]) ++ rest from by simp]
      simp [runMS, List.foldl_append]
    have hPL : runPlain c (es ++ e :: rest) = runPlain (runPlain c (es ++ [e])) rest := by
      rw [show es ++ e :: rest = (es ++ [e]) ++ rest from by simp]
      simp [runPlain, List.foldl_append]
    rw [hMS, hPL]
    refine ih (runMS m (es ++ [e])) (runPlain c (es ++ [e])) ?_ ?_ ?_ ?_
    · rw [hpre]
      exact h1
    · rw [hpre]
      exact h2
    · rw [hpre]
    · rw [hpre]
      show AgreeCore (msFlush m.n ((es ++ [e]).map StoreArgs.obs) ((es ++ [e]).map StoreArgs.act)
        (calculate_nstep_returns ((es ++ [e]).map StoreArgs.rew)
          m.intermediate.n m.intermediate.gamma)
        ((es ++ [e]).map StoreArgs.done) m.buf) (runPlain c (es ++ [e]))
      rw [h1, h2]
      exact flush_episode_agree (es ++ [e]) m.intermediate.gamma m.buf c hb

/-- Amended claim C2: for every input stream of complete episodes, the
multi-step replay buffer with `n = 1` ends up with the same `obs`, `act`
and `reward` arrays, cursor and size as the plain replay buffer fed the
same stream.  (The `next_obs` and `done` arrays genuinely differ — see the
counterexample theorem — so the claimed identity of all stored contents is
false.) -/
theorem multistep_n1_core_agree (C : ℕ) (gamma : ℚ) (ts : List StoreArgs)
    (h : CompleteEpisodes ts) :
    AgreeCore (runMS (MultiStepReplayBuffer.init C 1 gamma) ts).buf
      (runPlain (ReplayBuffer.init C) ts) :=
  (runMS_plain_agree ts h (MultiStepReplayBuffer.init C 1 gamma) (ReplayBuffer.init C)
    rfl rfl rfl ⟨rfl, rfl, rfl, rfl, rfl, rfl⟩).1

/-- Witness for the amended C2: one complete two-step episode, capacity 2. -/
theorem multistep_n1_core_agree_witness :
    AgreeCore (runMS (MultiStepReplayBuffer.init 2 1 1)
        [⟨1, 2, 3, 4, false⟩, ⟨4, 5, 6, 7, true⟩]).buf
      (runPlain (ReplayBuffer.init 2) [⟨1, 2, 3, 4, false⟩, ⟨4, 5, 6, 7, true⟩]) :=
  multistep_n1_core_agree 2 1 [⟨1, 2, 3, 4, false⟩, ⟨4, 5, 6, 7, true⟩]
    (CompleteEpisodes.episode [⟨1, 2, 3, 4, false⟩] ⟨4, 5, 6, 7, true⟩ []
      (by intro t ht
          rw [List.mem_singleton] at ht
          subst ht
          rfl)
      rfl CompleteEpisodes.nil)

/-- Counterexample to C2 as stated: on the complete episode
`[(1,2,3,4,done=false), (4,5,6,7,done=true)]` with capacity 2, the
multi-step buffer with `n = 1` stores `done = [1, 1]` and
`next_obs = [4, 4]`, while the plain buffer stores `done = [0, 1]` and
`next_obs = [4, 7]` — the stored contents are not identical. -/
theorem multistep_n1_not_identical :
    (runMS (MultiStepReplayBuffer.init 2 1 1)
        [⟨1, 2, 3, 4, false⟩, ⟨4, 5, 6, 7, true⟩]).buf.done_buf = [1, 1] ∧
    (runPlain (ReplayBuffer.init 2)
        [⟨1, 2, 3, 4, false⟩, ⟨4, 5, 6, 7, true⟩]).done_buf = [0, 1] ∧
    (runMS (MultiStepReplayBuffer.init 2 1 1)
        [⟨1, 2, 3, 4, false⟩, ⟨4, 5, 6, 7, true⟩]).buf.obs2_buf = [4, 4] ∧
    (runPlain (ReplayBuffer.init 2)
        [⟨1, 2, 3, 4, false⟩, ⟨4, 5, 6, 7, true⟩]).obs2_buf = [4, 7] ∧
    (runMS (MultiStepReplayBuffer.init 2 1 1)
        [⟨1, 2, 3, 4, false⟩, ⟨4, 5, 6, 7, true⟩]).buf.done_buf
      ≠ (runPlain (ReplayBuffer.init 2)
          [⟨1, 2, 3, 4, false⟩, ⟨4, 5, 6, 7, true⟩]).done_buf := by
  refine ⟨?_, by decide, ?_, by decide, ?_⟩
  · norm_num [runMS, MultiStepReplayBuffer.store1, MultiStepReplayBuffer.store,
      MultiStepReplayBuffer.init, MultiStepIntermediateBuffer.store,
      MultiStepIntermediateBuffer.init, MultiStepIntermediateBuffer.reset,
      MultiStepIntermediateBuffer.get_trajectory, msFlush, msFlushGo,
      calculate_nstep_returns, nstepIter, nstepShift, ReplayBuffer.init,
      ReplayBuffer.store, List.replicate]
  · norm_num [runMS, MultiStepReplayBuffer.store1, MultiStepReplayBuffer.store,
      MultiStepReplayBuffer.init, MultiStepIntermediateBuffer.store,
      MultiStepIntermediateBuffer.init, MultiStepIntermediateBuffer.reset,
      MultiStepIntermediateBuffer.get_trajectory, msFlush, msFlushGo,
      calculate_nstep_returns, nstepIter, nstepShift, ReplayBuffer.init,
      ReplayBuffer.store, List.replicate]
  · intro hcontra
    have h1 : (runMS (MultiStepReplayBuffer.init 2 1 1)
        [⟨1, 2, 3, 4, false⟩, ⟨4, 5, 6, 7, true⟩]).buf.done_buf = [1, 1] := by
      norm_num [runMS, MultiStepReplayBuffer.store1, MultiStepReplayBuffer.store,
        MultiStepReplayBuffer.init, MultiStepIntermediateBuffer.store,
        MultiStepIntermediateBuffer.init, MultiStepIntermediateBuffer.reset,
        MultiStepIntermediateBuffer.get_trajectory, msFlush, msFlushGo,
        calculate_nstep_returns, nstepIter, nstepShift, ReplayBuffer.init,
        ReplayBuffer.store, List.replicate]
    have h2 : (runPlain (ReplayBuffer.init 2)
        [⟨1, 2, 3, 4, false⟩, ⟨4, 5, 6, 7, true⟩]).done_buf = [0, 1] := by decide
    rw [h1, h2] at hcontra
    exact absurd hcontra (by norm_num)

/-! ### Accumulator retrieval (claim C8) -/

/-- Amended claim C8: `get_trajectory` fails (`assert self._full`) exactly
when the accumulator is not in the flushed state: in particular before any
flush, and again after the first `store` following a retrieval (which
resets the state).  A successful call returns the full
`(obs, act, n_step_returns, done)` sequence and only MARKS the accumulator
(`_ready_to_reset`) so that the next `store` resets it; it does not clear
`_full`, so an immediate second call succeeds again instead of failing
(see the counterexample theorem). -/
theorem get_trajectory_behaviour (b : MultiStepIntermediateBuffer) :
    (b.full = false → b.get_trajectory = none) ∧
    (b.full = true →
      b.get_trajectory
        = some ((b.obs_buf, b.act_buf, b.n_step_returns, b.done_buf),
            { b with ready_to_reset := true })) ∧
    (b.ready_to_reset = true → ∀ (obs act rew next_obs : ℚ) (done : Bool),
      (b.store obs act rew next_obs done).1.obs_buf = [obs] ∧
      (b.store obs act rew next_obs done).1.act_buf = [act] ∧
      (b.store obs act rew next_obs done).1.rew_buf = [rew] ∧
      (b.store obs act rew next_obs done).1.done_buf = [done]) := by
  refine ⟨?_, ?_, ?_⟩
  · intro h
    simp [MultiStepIntermediateBuffer.get_trajectory, h]
  · intro h
    simp [MultiStepIntermediateBuffer.get_trajectory, h]
  · intro h obs act rew next_obs done
    cases done <;>
      simp [MultiStepIntermediateBuffer.store, MultiStepIntermediateBuffer.reset, h]

/-- Witness for the amended C8 at the accumulator state reached by one
terminal store from the initial state. -/
theorem get_trajectory_behaviour_witness :
    ((((MultiStepIntermediateBuffer.init 1 1).store 0 0 0 0 true).1.full = false →
        (((MultiStepIntermediateBuffer.init 1 1).store 0 0 0 0 true).1).get_trajectory = none) ∧
     ((((MultiStepIntermediateBuffer.init 1 1).store 0 0 0 0 true).1).full = true →
        (((MultiStepIntermediateBuffer.init 1 1).store 0 0 0 0 true).1).get_trajectory
          = some (((((MultiStepIntermediateBuffer.init 1 1).store 0 0 0 0 true).1).obs_buf,
                   (((MultiStepIntermediateBuffer.init 1 1).store 0 0 0 0 true).1).act_buf,
                   (((MultiStepIntermediateBuffer.init 1 1).store 0 0 0 0 true).1).n_step_returns,
                   (((MultiStepIntermediateBuffer.init 1 1).store 0 0 0 0 true).1).done_buf),
              { ((MultiStepIntermediateBuffer.init 1 1).store 0 0 0 0 true).1 with
                ready_to_reset := true })) ∧
     ((((MultiStepIntermediateBuffer.init 1 1).store 0 0 0 0 true).1).ready_to_reset = true →
       ∀ (obs act rew next_obs : ℚ) (done : Bool),
         ((((MultiStepIntermediateBuffer.init 1 1).store 0 0 0 0 true).1).store
             obs act rew next_obs done).1.obs_buf = [obs] ∧
         ((((MultiStepIntermediateBuffer.init 1 1).store 0 0 0 0 true).1).store
             obs act rew next_obs done).1.act_buf = [act] ∧
         ((((MultiStepIntermediateBuffer.init 1 1).store 0 0 0 0 true).1).store
             obs act rew next_obs done).1.rew_buf = [rew] ∧
         ((((MultiStepIntermediateBuffer.init 1 1).store 0 0 0 0 true).1).store
             obs act rew next_obs done).1.done_buf = [done])) :=
  get_trajectory_behaviour (((MultiStepIntermediateBuffer.init 1 1).store 0 0 0 0 true).1)

/-- Counterexample to C8 as stated: flush once, retrieve once, then call
`get_trajectory` a second time with no intervening flush.  The claim says
the second call must fail; in the code `_full` is never cleared by
`get_trajectory`, so the second call succeeds (returns `some`, with the
same stale trajectory). -/
theorem get_trajectory_double_retrieval :
    ((((MultiStepIntermediateBuffer.init 1 1).store 0 0 0 0 true).1.get_trajectory).bind
        (fun p => p.2.get_trajectory)).isSome = true := by
  decide

/-! ### The multi-step buffer under the training loop (claim C9) -/

/-- Claim C9 fails on the code: with `max_ep_len = 2`, feed the loop an
episode that is cut off by the time horizon (two steps, raw `done = false`)
and then a one-step episode ending with a true terminal.  The time-out
suppresses `done`, so the accumulator is never flushed nor cleared at the
environment reset; the next episode joins the same segment.  The single
flush then inserts 3 transitions (`size = 3`, not 1), the accumulator's
segment is `obs = [1, 2, 3]` spanning both episodes, and the stored return
at position 1 is `0 + (1/2) * 8 = 4`: reward `8`, collected AFTER the
reset, leaks into a return of the episode recorded BEFORE the reset. -/
theorem timeout_merges_episodes :
    ((runLoop 2 (MultiStepReplayBuffer.init 10 2 (1/2))
        [⟨1, 0, 0, 2, false⟩, ⟨2, 0, 0, 3, false⟩, ⟨3, 0, 8, 4, true⟩]).1).buf.size = 3 ∧
    ((runLoop 2 (MultiStepReplayBuffer.init 10 2 (1/2))
        [⟨1, 0, 0, 2, false⟩, ⟨2, 0, 0, 3, false⟩, ⟨3, 0, 8, 4, true⟩]).1).buf.rew_buf.getD 1 0
      = 4 ∧
    ((runLoop 2 (MultiStepReplayBuffer.init 10 2 (1/2))
        [⟨1, 0, 0, 2, false⟩, ⟨2, 0, 0, 3, false⟩, ⟨3, 0, 8, 4, true⟩]).1).intermediate.obs_buf
      = [1, 2, 3] := by
  refine ⟨?_, ?_, ?_⟩ <;>
    norm_num [runLoop, td3StoreLoop, runMS, MultiStepReplayBuffer.store1,
      MultiStepReplayBuffer.store, MultiStepReplayBuffer.init,
      MultiStepIntermediateBuffer.store, MultiStepIntermediateBuffer.init,
      MultiStepIntermediateBuffer.reset, MultiStepIntermediateBuffer.get_trajectory,
      msFlush, msFlushGo, calculate_nstep_returns, nstepIter, nstepShift,
      ReplayBuffer.init, ReplayBuffer.store, List.replicate, List.getD]

/-! ### Frame property of non-terminal stores (claim C10) -/

/-- Claim C10: a `store` with `done = false` on the multi-step replay buffer
leaves the base buffer — all five arrays, cursor and size — completely
unchanged, so transitions only become visible to sampling after a terminal
store flushes the episode.  This holds on every reachable state, captured
by the invariant `full → ready_to_reset`, which holds initially and is
preserved by every `store` (first two conjuncts). -/
theorem multistep_store_frame :
    (∀ (C n : ℕ) (gamma : ℚ),
      (MultiStepReplayBuffer.init C n gamma).intermediate.full = true →
      (MultiStepReplayBuffer.init C n gamma).intermediate.ready_to_reset = true) ∧
    (∀ (m : MultiStepReplayBuffer) (t : StoreArgs),
      (m.intermediate.full = true → m.intermediate.ready_to_reset = true) →
      ((m.store1 t).intermediate.full = true →
        (m.store1 t).intermediate.ready_to_reset = true)) ∧
    (∀ (m : MultiStepReplayBuffer) (obs act rew next_obs : ℚ),
      (m.intermediate.full = true → m.intermediate.ready_to_reset = true) →
      (m.store obs act rew next_obs false).buf = m.buf) := by
  refine ⟨?_, ?_, ?_⟩
  · intro C n gamma h
    simp [MultiStepReplayBuffer.init, MultiStepIntermediateBuffer.init] at h
  · intro m t hinv
    rcases Bool.eq_false_or_eq_true t.done with hd | hd
    · rcases Bool.eq_false_or_eq_true m.intermediate.ready_to_reset with hr | hr
      · rw [store1_done_ready m t hd hr]
        intro _
        rfl
      · rw [store1_done_not_ready m t hd hr]
        intro _
        rfl
    · rcases Bool.eq_false_or_eq_true m.intermediate.ready_to_reset with hr | hr
      · rw [store1_not_done_ready m t hd hr]
        intro h
        exact absurd h (by simp)
      · have hfull : m.intermediate.full = false := by
          rcases Bool.eq_false_or_eq_true m.intermediate.full with hf | hf
          · rw [hinv hf] at hr
            exact absurd hr (by simp)
          · exact hf
        rw [store1_not_done_not_ready m t hd hr hfull]
        intro h
        simp only [hfull] at h
        exact absurd h (by simp)
  · intro m obs act rew next_obs hinv
    rcases Bool.eq_false_or_eq_true m.intermediate.ready_to_reset with hr | hr
    · rw [show m.store obs act rew next_obs false
          = m.store1 ⟨obs, act, rew, next_obs, false⟩ from rfl]
      rw [store1_not_done_ready m ⟨obs, act, rew, next_obs, false⟩ rfl hr]
    · have hfull : m.intermediate.full = false := by
        rcases Bool.eq_false_or_eq_true m.intermediate.full with hf | hf
        · rw [hinv hf] at hr
          exact absurd hr (by simp)
        · exact hf
      rw [show m.store obs act rew next_obs false
          = m.store1 ⟨obs, act, rew, next_obs, false⟩ from rfl]
      rw [store1_not_done_not_ready m ⟨obs, act, rew, next_obs, false⟩ rfl hr hfull]

/-- Witness for C10: a non-terminal store on the freshly initialized
multi-step buffer leaves the base buffer untouched. -/
theorem multistep_store_frame_witness :
    ((MultiStepReplayBuffer.init 2 1 1).store 5 6 7 8 false).buf
      = (MultiStepReplayBuffer.init 2 1 1).buf :=
  multistep_store_frame.2.2 (MultiStepReplayBuffer.init 2 1 1) 5 6 7 8
    (by intro h
        simp [MultiStepReplayBuffer.init, MultiStepIntermediateBuffer.init] at h)
